import Mathlib

/-!
Verification of the QBFT block-finalization core of the BoostryJP/quorum
repository (GoQuorum fork for ibet Network), together with the TLS
cipher-suite helper of the qlight security package.

The consensus engine itself (ValidatorSet quorum math, the Core state
machine with its message handlers, the per-sender MessageBacklog, and
the preprepare send path) ships outside the sampled sources; only its
test files are present.  Those parts are therefore modelled from the
specification, as the doc comments below record.  The cipher-suite
conversion is translated directly from its Go source.
-/

/-! ## Basic data model -/

/-- Validator identities; Go `common.Address`, abstracted to `Nat`. -/
abbrev Address := Nat

/-- Modelled from the spec: a View is a {sequence, round} pair, totally
ordered by (sequence, round); the Go `istanbul.View` struct is not under
the sampled sources. -/
structure View where
  Sequence : Nat
  Round : Nat
deriving DecidableEq

/-- Modelled from the spec: strict lexicographic order on views by
(sequence, round). -/
def View.lt (a b : View) : Prop :=
  a.Sequence < b.Sequence ∨ (a.Sequence = b.Sequence ∧ a.Round < b.Round)

instance (a b : View) : Decidable (View.lt a b) := by
  unfold View.lt
  infer_instance

/-- Modelled from the spec: a Proposal is an opaque block candidate with
a height (`Number`, Go `Proposal.Number()`) and a canonical hash
(`Digest`); the Go block type is not under the sampled sources. -/
structure Proposal where
  Number : Nat
  Digest : Nat
deriving DecidableEq

/-- Modelled from the spec: the message codes of the four consensus
phases (Go `qbfttypes.PreprepareCode` etc., not under the sampled
sources). -/
inductive MsgCode where
  | PreprepareCode
  | PrepareCode
  | CommitCode
  | RoundChangeCode
deriving DecidableEq

/-- Modelled from the spec: phase rank used for backlog ordering, so
that lower-phase messages replay first. -/
def MsgCode.phaseRank : MsgCode → Nat
  | .PreprepareCode => 0
  | .PrepareCode => 1
  | .CommitCode => 2
  | .RoundChangeCode => 3

/-- Modelled from the spec: the closed tagged union of consensus
messages (Go `qbfttypes.QBFTMessage`, not under the sampled sources).
Preprepare carries the Proposal; Prepare/Commit carry the proposal's
digest; RoundChange carries the highest prepared round/digest known to
the sender.  Every variant carries a View and a signed source. -/
inductive QBFTMessage where
  | Preprepare (v : View) (proposal : Proposal) (source : Address)
  | Prepare (v : View) (digest : Nat) (source : Address)
  | Commit (v : View) (digest : Nat) (source : Address)
  | RoundChange (v : View) (preparedRound : Option Nat) (preparedDigest : Option Nat)
      (source : Address)
deriving DecidableEq

/-- View carried by a message. -/
def QBFTMessage.view : QBFTMessage → View
  | .Preprepare v _ _ => v
  | .Prepare v _ _ => v
  | .Commit v _ _ => v
  | .RoundChange v _ _ _ => v

/-- Message code of a message (Go `msg.Code()`). -/
def QBFTMessage.Code : QBFTMessage → MsgCode
  | .Preprepare _ _ _ => .PreprepareCode
  | .Prepare _ _ _ => .PrepareCode
  | .Commit _ _ _ => .CommitCode
  | .RoundChange _ _ _ _ => .RoundChangeCode

/-- Sender of a message (Go `msg.Source()`). -/
def QBFTMessage.Source : QBFTMessage → Address
  | .Preprepare _ _ s => s
  | .Prepare _ _ s => s
  | .Commit _ _ s => s
  | .RoundChange _ _ _ s => s

/-! ## ValidatorSet and quorum math -/

/-- Modelled from the spec: ordered set of validator identities for the
active sequence (Go `istanbul.ValidatorSet`, not under the sampled
sources). -/
structure ValidatorSet where
  validators : List Address
deriving DecidableEq

/-- Number of validators (Go `valSet.Size()`). -/
def ValidatorSet.Size (vs : ValidatorSet) : Nat :=
  vs.validators.length

/-- Modelled from the spec: fault tolerance f = floor((N-1)/3)
(Go `valSet.F()`, not under the sampled sources). -/
def ValidatorSet.F (vs : ValidatorSet) : Nat :=
  (vs.Size - 1) / 3

/-- Modelled from the spec: the quorum size Q is the smallest integer
satisfying 2Q > N+F (strict); the Go `QuorumSize()` implementation is
not under the sampled sources. -/
def ValidatorSet.QuorumSize (vs : ValidatorSet) : Nat :=
  (vs.Size + vs.F) / 2 + 1

/-- Modelled from the spec: `AddValidator` appends a fresh identity to
the ordered set, a no-op when already present (Go `valSet.AddValidator`,
not under the sampled sources). -/
def ValidatorSet.AddValidator (vs : ValidatorSet) (a : Address) : ValidatorSet :=
  if a ∈ vs.validators then vs else ⟨vs.validators ++ [a]⟩

/-- Modelled from the spec: the proposer is a deterministic round-robin
function of the view and the set membership, identical on all correct
nodes given the same ordering. -/
def ValidatorSet.proposer (vs : ValidatorSet) (v : View) : Option Address :=
  vs.validators.get? ((v.Sequence + v.Round) % vs.validators.length)

/-- The initial 4-validator set of `TestQuorumSize` (N=4, F=1). -/
def initialValSet : ValidatorSet := ⟨[0, 1, 2, 3]⟩

/-- The validator set after `k` incremental `AddValidator` calls with
fresh addresses, mirroring the loop of `TestQuorumSize`. -/
def addedValSet : Nat → ValidatorSet
  | 0 => initialValSet
  | k + 1 => (addedValSet k).AddValidator (4 + k)

/-! ## Backlog priorities -/

/-- Backlog priority: a (sequence, round, phase-rank) triple. -/
abbrev Prio := Nat × Nat × Nat

/-- Modelled from the spec: `toPriority` computes a message's backlog
priority from its code and view as a function of (sequence, round,
phase-rank); the Go `toPriority` implementation is not under the sampled
sources. -/
def toPriority (code : MsgCode) (v : View) : Prio :=
  (v.Sequence, v.Round, code.phaseRank)

/-- Strict lexicographic comparison of priorities; smaller priorities
are replayed first. -/
def prioLtb (p q : Prio) : Bool :=
  decide (p.1 < q.1 ∨ (p.1 = q.1 ∧ (p.2.1 < q.2.1 ∨ (p.2.1 = q.2.1 ∧ p.2.2 < q.2.2))))

/-- Insert an entry into a priority-sorted entry list, after all entries
of smaller or equal priority (stable FIFO within equal priorities). -/
def insertEntry (e : QBFTMessage × Prio) :
    List (QBFTMessage × Prio) → List (QBFTMessage × Prio)
  | [] => [e]
  | x :: xs => if prioLtb e.2 x.2 then e :: x :: xs else x :: insertEntry e xs

/-- Modelled from the spec: a per-sender MessageBacklog, a priority
queue of deferred messages kept in priority order (the Go backlog
implementation is not under the sampled sources). -/
structure Backlog where
  entries : List (QBFTMessage × Prio)
deriving DecidableEq

/-- Empty backlog. -/
def emptyBacklog : Backlog := ⟨[]⟩

/-- Number of queued entries (Go `backlog.Size()`). -/
def Backlog.Size (b : Backlog) : Nat :=
  b.entries.length

/-- Modelled from the spec: `push` enqueues a message with its priority,
keeping the queue in priority order. -/
def Backlog.push (b : Backlog) (m : QBFTMessage) (p : Prio) : Backlog :=
  ⟨insertEntry (m, p) b.entries⟩

/-- Modelled from the spec: `Pop` removes and returns the entry of
minimal priority together with that priority. -/
def Backlog.Pop (b : Backlog) : Option (QBFTMessage × Prio) × Backlog :=
  match b.entries with
  | [] => (none, b)
  | e :: rest => (some e, ⟨rest⟩)

/-- Priority-sortedness of a backlog entry list: no later entry has a
strictly smaller priority than an earlier one. -/
abbrev prioSorted (l : List (QBFTMessage × Prio)) : Prop :=
  l.Pairwise (fun a b => prioLtb b.2 a.2 = false)

/-! ## RoundState and Core -/

/-- Modelled from the spec: the per-(sequence, round) RoundState:
current view, nilable accepted proposal, prepare and commit vote sets
keyed by sender (dedup), the `preprepareSent` marker recording the round
for which a preprepare was broadcast (0 / unset initially, guarding
duplicate broadcast), and the commit-sent flag.  The Go roundState is
not under the sampled sources. -/
structure RoundState where
  Sequence : Nat
  Round : Nat
  Preprepare : Option Proposal
  Prepares : List Address
  Commits : List Address
  preprepareSent : Nat
  commitSent : Bool
deriving DecidableEq

/-- Subject of a round: its view plus the accepted proposal's digest
(Go `current.Subject()`). -/
structure Subject where
  View : View
  Digest : Nat
deriving DecidableEq

/-- Subject computed from a RoundState; digest 0 while no proposal has
been accepted. -/
def RoundState.Subject (rs : RoundState) : Subject :=
  ⟨⟨rs.Sequence, rs.Round⟩, (rs.Preprepare.map Proposal.Digest).getD 0⟩

/-- The engine states of the Core lifecycle, in order (Go `State`
constants of the qbft core, not under the sampled sources). -/
inductive State where
  | StateAcceptRequest
  | StatePreprepared
  | StatePrepared
  | StateCommitted
deriving DecidableEq

/-- States in which a Preprepare for the current view may be accepted
(transition-table row From = AcceptRequest/Preprepared). -/
def stateAcceptsPreprepare : State → Bool
  | .StateAcceptRequest => true
  | .StatePreprepared => true
  | _ => false

/-- Modelled from the spec: the per-message error taxonomy of the core
(the Go error values are not under the sampled sources). -/
inductive Err where
  | errOldMessage
  | errFutureMessage
  | errUnauthorizedSender
  | errInconsistentProposal
deriving DecidableEq

/-- Modelled from the spec: the consensus Core state machine owned by
one validator: own address, lifecycle state, current RoundState, the
validator set frozen for the current round, per-sender backlogs, the
signed messages broadcast so far (newest last), and the recorded
round-change votes (sender, target round).  The Go core struct is not
under the sampled sources. -/
structure Core where
  address : Address
  state : State
  current : RoundState
  valSet : ValidatorSet
  backlogs : Address → Backlog
  sentMsgs : List QBFTMessage
  rcVotes : List (Address × Nat)

/-- Quorum size of the engine's current validator set
(Go `c.QuorumSize()`). -/
def Core.QuorumSize (c : Core) : Nat :=
  c.valSet.QuorumSize

/-- Current view of the engine (Go `c.currentView()`). -/
def Core.currentView (c : Core) : View :=
  ⟨c.current.Sequence, c.current.Round⟩

/-- Pointwise update of the per-sender backlog map. -/
def updateBacklogs (f : Address → Backlog) (a : Address) (b : Backlog) :
    Address → Backlog :=
  fun x => if x = a then b else f x

/-- Modelled from the spec: a future message is enqueued to its sender's
backlog with priority `toPriority` of its code and view. -/
def addToBacklog (c : Core) (m : QBFTMessage) : Core :=
  { c with
    backlogs := updateBacklogs c.backlogs m.Source
      ((c.backlogs m.Source).push m (toPriority m.Code m.view)) }

/-- Modelled from the spec: message age classification against the
current RoundState view: strictly behind is `errOldMessage` (dropped),
strictly ahead is `errFutureMessage` (deferred to backlog), matching is
processed now. -/
def checkMessage (c : Core) (v : View) : Option Err :=
  if View.lt v c.currentView then some .errOldMessage
  else if View.lt c.currentView v then some .errFutureMessage
  else none

/-- Record a sender into a dedup vote set: distinct senders only. -/
def addIfAbsent (a : Address) (l : List Address) : List Address :=
  if a ∈ l then l else a :: l

/-- Modelled from the spec: handling of a Preprepare at the current
view: the sender must be the legitimate proposer of the view (else
`errUnauthorizedSender`, dropped); in AcceptRequest/Preprepared the
proposal is accepted into the RoundState and a signed Prepare carrying
the proposal's digest is broadcast, moving the state to Preprepared; a
duplicate Preprepare carrying a different proposal never overwrites the
accepted one (`errInconsistentProposal`). -/
def handlePreprepare (c : Core) (v : View) (p : Proposal) (src : Address) :
    Option Err × Core :=
  if c.valSet.proposer v = some src then
    if stateAcceptsPreprepare c.state then
      match c.current.Preprepare with
      | some q => if q = p then (none, c) else (some .errInconsistentProposal, c)
      | none =>
          (none,
           { c with
             state := .StatePreprepared,
             current := { c.current with Preprepare := some p },
             sentMsgs := c.sentMsgs ++ [QBFTMessage.Prepare v p.Digest c.address] })
    else (none, c)
  else (some .errUnauthorizedSender, c)

/-- Modelled from the spec: handling of a Prepare at the current view:
the digest must match the accepted proposal; the vote is recorded per
sender (dedup, distinct senders only); on reaching QuorumSize distinct
senders the engine broadcasts a signed Commit, marks the commit sent and
moves to Prepared. -/
def handlePrepare (c : Core) (v : View) (d : Nat) (src : Address) :
    Option Err × Core :=
  if c.current.Preprepare.map Proposal.Digest = some d then
    let preps := addIfAbsent src c.current.Prepares
    if preps.length ≥ c.QuorumSize then
      (none,
       { c with
         state := .StatePrepared,
         current := { c.current with Prepares := preps, commitSent := true },
         sentMsgs := c.sentMsgs ++ [QBFTMessage.Commit v d c.address] })
    else (none, { c with current := { c.current with Prepares := preps } })
  else (some .errInconsistentProposal, c)

/-- Modelled from the spec: handling of a Commit at the current view:
the digest must match the accepted proposal; the vote is recorded per
sender (dedup); on reaching QuorumSize distinct senders the proposal is
finalized (delivery to the Backend lies at the external interface
boundary) and the state becomes Committed. -/
def handleCommit (c : Core) (v : View) (d : Nat) (src : Address) :
    Option Err × Core :=
  if c.current.Preprepare.map Proposal.Digest = some d then
    let cmts := addIfAbsent src c.current.Commits
    if cmts.length ≥ c.QuorumSize then
      (none,
       { c with
         state := .StateCommitted,
         current := { c.current with Commits := cmts } })
    else (none, { c with current := { c.current with Commits := cmts } })
  else (some .errInconsistentProposal, c)

/-- Count recorded round-change votes for a target round. -/
def countVotes (target : Nat) (votes : List (Address × Nat)) : Nat :=
  (votes.filter (fun x => x.2 = target)).length

/-- Modelled from the spec: handling of a RoundChange with view not
older than the current one: the vote is recorded per sender (dedup); on
a quorum of distinct senders for the same target round, that round is
adopted with a reset RoundState and the state returns to
AcceptRequest. -/
def handleRoundChange (c : Core) (v : View) (src : Address) :
    Option Err × Core :=
  let votes :=
    if c.rcVotes.any (fun x => x.1 = src) then c.rcVotes
    else (src, v.Round) :: c.rcVotes
  if countVotes v.Round votes ≥ c.QuorumSize then
    (none,
     { c with
       state := .StateAcceptRequest,
       current := { c.current with
                    Round := v.Round,
                    Preprepare := none,
                    Prepares := [],
                    Commits := [],
                    commitSent := false },
       rcVotes := [] })
  else (none, { c with rcVotes := votes })

/-- Modelled from the spec: `handleDecodedMessage`, the single entry
point for inbound consensus traffic: RoundChange is accepted for any
view not older than the current one; every other message is classified
by age against the current view — strictly old messages are dropped with
`errOldMessage`, strictly future messages are deferred to the sender's
backlog with `errFutureMessage`, and current-view messages are
dispatched exhaustively over the closed message union. -/
def handleDecodedMessage (c : Core) (m : QBFTMessage) : Option Err × Core :=
  match m with
  | .RoundChange v _ _ src =>
      if View.lt v c.currentView then (some .errOldMessage, c)
      else handleRoundChange c v src
  | m' =>
      match checkMessage c m'.view with
      | some .errFutureMessage => (some .errFutureMessage, addToBacklog c m')
      | some e => (some e, c)
      | none =>
          match m' with
          | .Preprepare v p src => handlePreprepare c v p src
          | .Prepare v d src => handlePrepare c v d src
          | .Commit v d src => handleCommit c v d src
          | .RoundChange v _ _ src => handleRoundChange c v src

/-! ## Preprepare send path -/

/-- Modelled from the spec: a proposal Request; the round-change and
prepare justification message lists may be nil. -/
structure Request where
  Proposal : Proposal
  RCMessages : Option (List QBFTMessage)
  PrepareMessages : Option (List QBFTMessage)

/-- Modelled from the spec: the preprepare send path with its
concurrency re-check.  Fetching the proposal's height may be slow and
asynchronous, so the engine state may change while the fetch is in
flight; `interleave` is that intervening state change.  After the fetch
completes the engine re-checks the fetched height against the live
local sequence (and that it is the proposer for the view): on a match it
broadcasts a signed Preprepare and marks `preprepareSent` with the
current round; on a mismatch the send is silently skipped. -/
def sendPreprepareMsgWithFetch (c : Core) (r : Request)
    (interleave : Core → Core) : Core :=
  let height := r.Proposal.Number
  let c1 := interleave c
  if height = c1.current.Sequence ∧ c1.valSet.proposer c1.currentView = some c1.address
  then
    { c1 with
      sentMsgs := c1.sentMsgs ++
        [QBFTMessage.Preprepare c1.currentView r.Proposal c1.address],
      current := { c1.current with preprepareSent := c1.current.Round } }
  else c1

/-- Modelled from the spec: `sendPreprepareMsg` with no intervening
state change during the proposal fetch. -/
def sendPreprepareMsg (c : Core) (r : Request) : Core :=
  sendPreprepareMsgWithFetch c r id

/-! ## Validator-set reconfiguration at sequence boundaries -/

/-- Modelled from the spec: the validator-set reconfiguration view of
the engine: mutations requested while a round for the current sequence
is in flight are deferred (kept pending), and pending mutations take
effect only at the sequence boundary; the set used by a given
(sequence, round) is frozen at round-entry.  The Go reconfiguration
path is not under the sampled sources. -/
structure ReconfigEngine where
  sequence : Nat
  round : Nat
  roundInFlight : Bool
  valSet : ValidatorSet
  pending : List Address

/-- Modelled from the spec: a requested validator addition is deferred
while a round is in flight and applied immediately otherwise. -/
def ReconfigEngine.requestAddValidator (e : ReconfigEngine) (a : Address) :
    ReconfigEngine :=
  if e.roundInFlight then { e with pending := e.pending ++ [a] }
  else { e with valSet := e.valSet.AddValidator a }

/-- Modelled from the spec: at the sequence boundary the pending
mutations are applied, the sequence advances and the round resets. -/
def ReconfigEngine.advanceSequence (e : ReconfigEngine) : ReconfigEngine :=
  { e with
    sequence := e.sequence + 1,
    round := 0,
    roundInFlight := false,
    valSet := e.pending.foldl ValidatorSet.AddValidator e.valSet,
    pending := [] }

/-! ## Cipher suites (translated from the Go source of the qlight
security package) -/

/-- The supported TLS 1.0 - 1.2 cipher suites of `supportedCipherSuites`
in the security package, mapping each name to its `crypto/tls` uint16
constant. -/
def supportedCipherSuites (cs : String) : Option Nat :=
  match cs with
  | "TLS_RSA_WITH_AES_128_CBC_SHA" => some 0x002f
  | "TLS_RSA_WITH_AES_256_CBC_SHA" => some 0x0035
  | "TLS_RSA_WITH_AES_128_GCM_SHA256" => some 0x009c
  | "TLS_RSA_WITH_AES_256_GCM_SHA384" => some 0x009d
  | "TLS_ECDHE_ECDSA_WITH_AES_128_CBC_SHA" => some 0xc009
  | "TLS_ECDHE_ECDSA_WITH_AES_256_CBC_SHA" => some 0xc00a
  | "TLS_ECDHE_RSA_WITH_AES_128_CBC_SHA" => some 0xc013
  | "TLS_ECDHE_RSA_WITH_AES_256_CBC_SHA" => some 0xc014
  | "TLS_ECDHE_ECDSA_WITH_AES_128_GCM_SHA256" => some 0xc02b
  | "TLS_ECDHE_ECDSA_WITH_AES_256_GCM_SHA384" => some 0xc02c
  | "TLS_ECDHE_RSA_WITH_AES_128_GCM_SHA256" => some 0xc02f
  | "TLS_ECDHE_RSA_WITH_AES_256_GCM_SHA384" => some 0xc030
  | "TLS_ECDHE_RSA_WITH_CHACHA20_POLY1305_SHA256" => some 0xcca8
  | "TLS_ECDHE_ECDSA_WITH_CHACHA20_POLY1305_SHA256" => some 0xcca9
  | _ => none

/-- Go `CipherSuite.toUint16`: look the name up in the supported map,
returning its uint16 constant, or an error for an unsupported name. -/
def CipherSuite.toUint16 (cs : String) : Except String Nat :=
  match supportedCipherSuites cs with
  | some v => .ok v
  | none => .error ("not supported cipher suite " ++ cs)

/-- Go `CipherSuiteList.ToUint16Array`: convert every name in order,
returning the first error met (the Go code returns a nil array in that
case, rendered here by the error constructor carrying no array). -/
def CipherSuiteList.ToUint16Array : List String → Except String (List Nat)
  | [] => .ok []
  | cs :: rest =>
      match CipherSuite.toUint16 cs with
      | .error e => .error e
      | .ok v =>
          match CipherSuiteList.ToUint16Array rest with
          | .error e => .error e
          | .ok a => .ok (v :: a)

/-- True on the ok constructor, false on the error constructor. -/
def exceptOk {ε α : Type} : Except ε α → Bool
  | .ok _ => true
  | .error _ => false

/-! ## Concrete fixtures used by the witnesses -/

/-- A fresh RoundState at sequence 4, round 0. -/
def rsA : RoundState :=
  { Sequence := 4, Round := 0, Preprepare := none, Prepares := [],
    Commits := [], preprepareSent := 0, commitSent := false }

/-- A concrete replica (address 1) of a 4-validator system in
AcceptRequest at view (4, 0); the round-robin proposer of that view is
validator 0. -/
def coreB : Core :=
  { address := 1, state := .StateAcceptRequest, current := rsA,
    valSet := initialValSet, backlogs := fun _ => emptyBacklog,
    sentMsgs := [], rcVotes := [] }

/-- A concrete proposer replica (address 0) of a 4-validator system in
AcceptRequest at view (4, 0). -/
def coreP : Core :=
  { address := 0, state := .StateAcceptRequest, current := rsA,
    valSet := initialValSet, backlogs := fun _ => emptyBacklog,
    sentMsgs := [], rcVotes := [] }

/-- A concrete replica whose RoundState sits at sequence 10, round 10. -/
def coreOld : Core :=
  { address := 1, state := .StatePreprepared,
    current := { rsA with Sequence := 10, Round := 10 },
    valSet := initialValSet, backlogs := fun _ => emptyBacklog,
    sentMsgs := [], rcVotes := [] }

/-- A concrete engine holding the validator set reached after 5
incremental additions. -/
def coreC1 : Core := { coreB with valSet := addedValSet 5 }

/-- A request whose proposal height 0 does not match the live
sequence 4. -/
def reqMismatch : Request := ⟨⟨0, 21⟩, none, none⟩

/-- A request whose proposal height matches the live sequence 4. -/
def reqMatch : Request := ⟨⟨4, 21⟩, none, none⟩

/-- A concurrent state change setting the live sequence to 1, mirroring
the goroutine of `TestSendPreprepareMsg`. -/
def seqBump : Core → Core :=
  fun c0 => { c0 with current := { c0.current with Sequence := 1 } }

/-- A concrete message used by the backlog witness. -/
def msg8 : QBFTMessage := .Prepare ⟨1, 0⟩ 7 2

/-- A concrete reconfiguration engine with a round in flight. -/
def engE : ReconfigEngine := ⟨4, 0, true, initialValSet, []⟩

/-- A concrete supported cipher-suite list. -/
def csl10 : List String := ["TLS_RSA_WITH_AES_128_CBC_SHA"]

/-- A concrete proposal at height 4 with digest 99. -/
def propB : Proposal := ⟨4, 99⟩

/-! ## Helper lemmas -/

/-- Strict view order is irreflexive. -/
theorem View.lt_irrefl (v : View) : ¬ View.lt v v := by
  unfold View.lt
  omega

/-- Strict view order is asymmetric. -/
theorem View.lt_asymm {a b : View} (h : View.lt a b) : ¬ View.lt b a := by
  unfold View.lt at *
  omega

/-- Unfolding of the Bool priority comparison. -/
theorem prioLtb_true_iff (p q : Prio) :
    prioLtb p q = true ↔
      (p.1 < q.1 ∨ (p.1 = q.1 ∧ (p.2.1 < q.2.1 ∨ (p.2.1 = q.2.1 ∧ p.2.2 < q.2.2)))) := by
  simp [prioLtb]

/-- The priority comparison is asymmetric. -/
theorem prioLtb_asymm {p q : Prio} (h : prioLtb p q = true) : prioLtb q p = false := by
  simp only [prioLtb, decide_eq_true_eq, decide_eq_false_iff_not] at *
  omega

/-- Entries not below a dominating entry are not below a dominated one. -/
theorem prioLtb_shift {p q r : Prio} (h1 : prioLtb p q = true)
    (h2 : prioLtb r q = false) : prioLtb r p = false := by
  simp only [prioLtb, decide_eq_true_eq, decide_eq_false_iff_not] at *
  omega

/-- Inserting into the entry list is a permutation of consing. -/
theorem insertEntry_perm (e : QBFTMessage × Prio) (l : List (QBFTMessage × Prio)) :
    List.Perm (insertEntry e l) (e :: l) := by
  induction l with
  | nil => simp [insertEntry]
  | cons x xs ih =>
      by_cases h : prioLtb e.2 x.2 = true
      · simp [insertEntry, h]
      · simp only [insertEntry, h, if_false, Bool.false_eq_true]
        exact (List.Perm.cons x ih).trans (List.Perm.swap e x xs)

/-- Inserting into a priority-sorted entry list keeps it sorted. -/
theorem insertEntry_sorted (e : QBFTMessage × Prio) {l : List (QBFTMessage × Prio)}
    (hs : prioSorted l) : prioSorted (insertEntry e l) := by
  induction l with
  | nil => simp [insertEntry, prioSorted]
  | cons x xs ih =>
      obtain ⟨hx, hxs⟩ := List.pairwise_cons.mp hs
      by_cases h : prioLtb e.2 x.2 = true
      · simp only [insertEntry, h, if_true]
        refine List.Pairwise.cons ?_ hs
        intro y hy
        rcases List.mem_cons.mp hy with rfl | hy'
        · exact prioLtb_asymm h
        · exact prioLtb_shift h (hx y hy')
      · simp only [insertEntry, h, if_false, Bool.false_eq_true]
        refine List.Pairwise.cons ?_ (ih hxs)
        intro y hy
        have hmem : y = e ∨ y ∈ xs := by
          have := (insertEntry_perm e xs).mem_iff.mp hy
          simpa using this
        rcases hmem with rfl | hy'
        · simpa using h
        · exact hx y hy'

/-! ## Claim C1: quorum double bound -/

/-- C1: for every validator set obtained from the initial N=4, F=1 set
by adding between 1 and 1000 validators one at a time, the quorum size Q
returned by the engine's QuorumSize() satisfies 2Q > N+F (strict) and
2Q ≤ N+F+2, where N is the set's Size() and F its F() value after each
addition. -/
theorem quorumSize_double_bound (i : Nat) (c : Core)
    (h1 : 1 ≤ i) (h2 : i ≤ 1000) (hvs : c.valSet = addedValSet i) :
    2 * c.QuorumSize > c.valSet.Size + c.valSet.F ∧
    2 * c.QuorumSize ≤ c.valSet.Size + c.valSet.F + 2 := by
  have key : ∀ n : Nat,
      2 * ((n + (n - 1) / 3) / 2 + 1) > n + (n - 1) / 3 ∧
      2 * ((n + (n - 1) / 3) / 2 + 1) ≤ n + (n - 1) / 3 + 2 := by
    intro n
    have hd := Nat.div_add_mod (n + (n - 1) / 3) 2
    have hm : (n + (n - 1) / 3) % 2 < 2 := Nat.mod_lt _ (by omega)
    omega
  simpa [Core.QuorumSize, ValidatorSet.QuorumSize, ValidatorSet.F, hvs] using
    key (addedValSet i).Size

/-- Witness for C1 at i = 5. -/
theorem quorumSize_double_bound_witness :
    2 * coreC1.QuorumSize > coreC1.valSet.Size + coreC1.valSet.F ∧
    2 * coreC1.QuorumSize ≤ coreC1.valSet.Size + coreC1.valSet.F + 2 :=
  quorumSize_double_bound 5 coreC1 (by decide) (by decide) rfl

/-! ## Claim C8: backlog push/pop round-trip -/

/-- C8: every message pushed to a sender's backlog is returned by Pop
together with a priority equal to toPriority of its code and view (the
push-then-pop round-trip on an empty backlog yields exactly the pushed
entry); pushing is a permutation of adding the entry and keeps the queue
in priority order, so successive Pops return entries in priority order;
and the priority is a function of (sequence, round, phase-rank) under
which older views and lower phases come first. -/
theorem backlog_push_pop_roundtrip (b : Backlog) (m : QBFTMessage)
    (hs : prioSorted b.entries) :
    (b.entries = [] →
      (b.push m (toPriority m.Code m.view)).Pop =
        (some (m, toPriority m.Code m.view), b)) ∧
    List.Perm (b.push m (toPriority m.Code m.view)).entries
      ((m, toPriority m.Code m.view) :: b.entries) ∧
    prioSorted (b.push m (toPriority m.Code m.view)).entries ∧
    (∀ (v w : View) (k k' : MsgCode), View.lt v w →
      prioLtb (toPriority k v) (toPriority k' w) = true) ∧
    (∀ (v : View) (k k' : MsgCode), k.phaseRank < k'.phaseRank →
      prioLtb (toPriority k v) (toPriority k' v) = true) := by
  obtain ⟨l⟩ := b
  refine ⟨?_, insertEntry_perm _ _, insertEntry_sorted _ hs, ?_, ?_⟩
  · intro he
    subst he
    simp [Backlog.push, insertEntry, Backlog.Pop]
  · intro v w k k' hvw
    unfold View.lt at hvw
    simp [toPriority, prioLtb]
    omega
  · intro v k k' hk
    simp [toPriority, prioLtb]
    omega

/-- Witness for C8: pushing a concrete Prepare onto an empty backlog and
popping returns it with its toPriority priority. -/
theorem backlog_push_pop_roundtrip_witness :
    (emptyBacklog.push msg8 (toPriority msg8.Code msg8.view)).Pop =
      (some (msg8, toPriority msg8.Code msg8.view), emptyBacklog) :=
  (backlog_push_pop_roundtrip emptyBacklog msg8 List.Pairwise.nil).1 rfl

/-! ## Claim C9: validator-set mutations at sequence boundaries -/

/-- C9: validator-set mutations requested while a round for the current
sequence is in flight are deferred, never applied mid-round: any series
of requested additions leaves the validator set used by the current
(sequence, round) exactly as frozen at round-entry, and the deferred
additions take effect only at the sequence boundary. -/
theorem validatorSet_frozen_mid_round (e : ReconfigEngine) (as : List Address)
    (hin : e.roundInFlight = true) :
    (as.foldl ReconfigEngine.requestAddValidator e).valSet = e.valSet ∧
    (as.foldl ReconfigEngine.requestAddValidator e).sequence = e.sequence ∧
    (as.foldl ReconfigEngine.requestAddValidator e).round = e.round ∧
    (as.foldl ReconfigEngine.requestAddValidator e).pending = e.pending ++ as ∧
    ((as.foldl ReconfigEngine.requestAddValidator e).advanceSequence).valSet =
      (e.pending ++ as).foldl ValidatorSet.AddValidator e.valSet := by
  have main : ∀ (as : List Address) (e : ReconfigEngine), e.roundInFlight = true →
      (as.foldl ReconfigEngine.requestAddValidator e).valSet = e.valSet ∧
      (as.foldl ReconfigEngine.requestAddValidator e).sequence = e.sequence ∧
      (as.foldl ReconfigEngine.requestAddValidator e).round = e.round ∧
      (as.foldl ReconfigEngine.requestAddValidator e).pending = e.pending ++ as := by
    intro as
    induction as with
    | nil => intro e _; simp
    | cons a rest ih =>
        intro e he
        have hstep : ReconfigEngine.requestAddValidator e a =
            { e with pending := e.pending ++ [a] } := by
          simp [ReconfigEngine.requestAddValidator, he]
        have hrec := ih { e with pending := e.pending ++ [a] } he
        simp only [List.foldl_cons, hstep]
        refine ⟨hrec.1, hrec.2.1, hrec.2.2.1, ?_⟩
        rw [hrec.2.2.2]
        simp
  obtain ⟨h1, h2, h3, h4⟩ := main as e hin
  refine ⟨h1, h2, h3, h4, ?_⟩
  simp [ReconfigEngine.advanceSequence, h1, h4]

/-- Witness for C9 on a concrete in-flight engine and one requested
addition. -/
theorem validatorSet_frozen_mid_round_witness :
    (([9] : List Address).foldl ReconfigEngine.requestAddValidator engE).valSet = engE.valSet ∧
    (([9] : List Address).foldl ReconfigEngine.requestAddValidator engE).sequence = engE.sequence ∧
    (([9] : List Address).foldl ReconfigEngine.requestAddValidator engE).round = engE.round ∧
    (([9] : List Address).foldl ReconfigEngine.requestAddValidator engE).pending = engE.pending ++ [9] ∧
    ((([9] : List Address).foldl ReconfigEngine.requestAddValidator engE).advanceSequence).valSet =
      (engE.pending ++ [9]).foldl ValidatorSet.AddValidator engE.valSet :=
  validatorSet_frozen_mid_round engE [9] rfl

/-! ## Claim C10: cipher-suite list conversion -/

/-- C10: CipherSuiteList.ToUint16Array errs if and only if some element
of the list is not a supported cipher-suite name; on success it returns
a list of the same length whose i-th element is the uint16 constant
mapped from the i-th name (on error the Go code returns a nil array,
rendered here by the error constructor carrying no array). -/
theorem toUint16Array_spec (csl : List String) :
    (exceptOk (CipherSuiteList.ToUint16Array csl) = false ↔
      ∃ cs ∈ csl, supportedCipherSuites cs = none) ∧
    (∀ a, CipherSuiteList.ToUint16Array csl = Except.ok a →
      a.length = csl.length ∧
      ∀ i, a.get? i = (csl.get? i).bind supportedCipherSuites) := by
  induction csl with
  | nil =>
      refine ⟨by simp [CipherSuiteList.ToUint16Array, exceptOk], ?_⟩
      intro a ha
      simp only [CipherSuiteList.ToUint16Array, Except.ok.injEq] at ha
      subst ha
      simp
  | cons cs rest ih =>
      cases hcs : supportedCipherSuites cs with
      | none =>
          have herr : CipherSuiteList.ToUint16Array (cs :: rest) =
              .error ("not supported cipher suite " ++ cs) := by
            simp [CipherSuiteList.ToUint16Array, CipherSuite.toUint16, hcs]
          refine ⟨?_, ?_⟩
          · simp [herr, exceptOk, List.exists_mem_cons_iff, hcs]
          · intro a ha
            rw [herr] at ha
            exact absurd ha (by simp)
      | some v =>
          have htu : CipherSuite.toUint16 cs = .ok v := by
            simp [CipherSuite.toUint16, hcs]
          cases h2 : CipherSuiteList.ToUint16Array rest with
          | error e =>
              have herr : CipherSuiteList.ToUint16Array (cs :: rest) = .error e := by
                simp [CipherSuiteList.ToUint16Array, htu, h2]
              refine ⟨?_, ?_⟩
              · have hr := ih.1
                rw [h2] at hr
                simp only [exceptOk, eq_self_iff_true, true_iff] at hr
                simp [herr, exceptOk, List.exists_mem_cons_iff]
                right
                exact hr
              · intro a ha
                rw [herr] at ha
                exact absurd ha (by simp)
          | ok arr =>
              have hok : CipherSuiteList.ToUint16Array (cs :: rest) = .ok (v :: arr) := by
                simp [CipherSuiteList.ToUint16Array, htu, h2]
              have hne := ih.1
              rw [h2] at hne
              refine ⟨?_, ?_⟩
              · simp only [exceptOk, Bool.true_eq_false, false_iff] at hne
                simp [hok, exceptOk, List.exists_mem_cons_iff, hcs]
                simpa using hne
              · intro a ha
                rw [hok] at ha
                obtain ⟨hrl, hrg⟩ := ih.2 arr h2
                injection ha with ha'
                subst ha'
                refine ⟨by simp [hrl], ?_⟩
                intro i
                cases i with
                | zero => simp [hcs]
                | succ n => simpa using hrg n

/-- Witness for C10 on a concrete supported one-element list. -/
theorem toUint16Array_spec_witness :
    ([0x002f] : List Nat).length = csl10.length ∧
    ∀ i, ([0x002f] : List Nat).get? i = (csl10.get? i).bind supportedCipherSuites :=
  (toUint16Array_spec csl10).2 [0x002f] (by rfl)

/-! ## Claim C2: normal Preprepare handling -/

/-- C2: in an N=4 system, a replica in AcceptRequest receiving via
handleDecodedMessage a Preprepare from the legitimate proposer carrying
the current view gets no error, moves to Preprepared, its current
subject view equals the proposer's current view, and it broadcasts
exactly one Prepare (its first sent message decodes as a Prepare)
matching the proposal's digest. -/
theorem handlePreprepare_normal_case (c : Core) (p : Proposal) (src : Address)
    (hN : c.valSet.Size = 4)
    (hstate : c.state = State.StateAcceptRequest)
    (hprop : c.valSet.proposer c.currentView = some src)
    (hnone : c.current.Preprepare = none)
    (hsent : c.sentMsgs = []) :
    (handleDecodedMessage c (.Preprepare c.currentView p src)).1 = none ∧
    (handleDecodedMessage c (.Preprepare c.currentView p src)).2.state =
      State.StatePreprepared ∧
    ((handleDecodedMessage c (.Preprepare c.currentView p src)).2.current.Subject).View =
      c.currentView ∧
    (handleDecodedMessage c (.Preprepare c.currentView p src)).2.sentMsgs =
      [QBFTMessage.Prepare c.currentView p.Digest c.address] ∧
    (((handleDecodedMessage c (.Preprepare c.currentView p src)).2.sentMsgs.get? 0).map
      QBFTMessage.Code) = some MsgCode.PrepareCode := by
  have hchk : checkMessage c c.currentView = none := by
    simp [checkMessage, View.lt_irrefl]
  have hred : handleDecodedMessage c (.Preprepare c.currentView p src) =
      handlePreprepare c c.currentView p src := by
    simp [handleDecodedMessage, QBFTMessage.view, hchk]
  rw [hred]
  unfold handlePreprepare
  rw [if_pos hprop]
  simp [hstate, stateAcceptsPreprepare, hnone, hsent, RoundState.Subject,
    Core.currentView, QBFTMessage.Code]

/-- Witness for C2 on a concrete N=4 replica (address 1) receiving the
current-view Preprepare from proposer 0. -/
theorem handlePreprepare_normal_case_witness :
    (handleDecodedMessage coreB (.Preprepare coreB.currentView propB 0)).1 = none ∧
    (handleDecodedMessage coreB (.Preprepare coreB.currentView propB 0)).2.state =
      State.StatePreprepared ∧
    ((handleDecodedMessage coreB (.Preprepare coreB.currentView propB 0)).2.current.Subject).View =
      coreB.currentView ∧
    (handleDecodedMessage coreB (.Preprepare coreB.currentView propB 0)).2.sentMsgs =
      [QBFTMessage.Prepare coreB.currentView propB.Digest coreB.address] ∧
    (((handleDecodedMessage coreB (.Preprepare coreB.currentView propB 0)).2.sentMsgs.get? 0).map
      QBFTMessage.Code) = some MsgCode.PrepareCode :=
  handlePreprepare_normal_case coreB propB 0 (by decide) (by decide) (by decide)
    (by decide) (by decide)

/-! ## Claim C3: future Preprepare deferred to the backlog -/

/-- C3: a Preprepare whose view is strictly ahead of the replica's
current view makes handleDecodedMessage return errFutureMessage; the
message is enqueued into the sender's backlog (its size becomes 1) with
priority toPriority of the message code and view, Pop returns the exact
same message, and the replica's state is unchanged. -/
theorem handlePreprepare_future_message (c : Core) (v : View) (p : Proposal) (src : Address)
    (hfut : View.lt c.currentView v)
    (hempty : c.backlogs src = emptyBacklog) :
    (handleDecodedMessage c (.Preprepare v p src)).1 = some Err.errFutureMessage ∧
    ((handleDecodedMessage c (.Preprepare v p src)).2.backlogs src).Size = 1 ∧
    ((handleDecodedMessage c (.Preprepare v p src)).2.backlogs src).Pop =
      (some (QBFTMessage.Preprepare v p src, toPriority MsgCode.PreprepareCode v),
       emptyBacklog) ∧
    (handleDecodedMessage c (.Preprepare v p src)).2.state = c.state ∧
    (handleDecodedMessage c (.Preprepare v p src)).2.current = c.current := by
  have hnotold : ¬ View.lt v c.currentView := View.lt_asymm hfut
  have hchk : checkMessage c v = some .errFutureMessage := by
    simp [checkMessage, hnotold, hfut]
  have hred : handleDecodedMessage c (.Preprepare v p src) =
      (some .errFutureMessage, addToBacklog c (.Preprepare v p src)) := by
    simp [handleDecodedMessage, QBFTMessage.view, hchk]
  rw [hred]
  refine ⟨rfl, ?_, ?_, rfl, rfl⟩
  · simp [addToBacklog, updateBacklogs, QBFTMessage.Source, hempty, Backlog.push,
      emptyBacklog, insertEntry, Backlog.Size, QBFTMessage.Code, QBFTMessage.view]
  · simp [addToBacklog, updateBacklogs, QBFTMessage.Source, hempty, Backlog.push,
      emptyBacklog, insertEntry, Backlog.Pop, QBFTMessage.Code, QBFTMessage.view]

/-- Witness for C3: view (5,0) is strictly ahead of coreB's (4,0). -/
theorem handlePreprepare_future_message_witness :
    (handleDecodedMessage coreB (.Preprepare ⟨5, 0⟩ propB 0)).1 = some Err.errFutureMessage ∧
    ((handleDecodedMessage coreB (.Preprepare ⟨5, 0⟩ propB 0)).2.backlogs 0).Size = 1 ∧
    ((handleDecodedMessage coreB (.Preprepare ⟨5, 0⟩ propB 0)).2.backlogs 0).Pop =
      (some (QBFTMessage.Preprepare ⟨5, 0⟩ propB 0,
             toPriority MsgCode.PreprepareCode ⟨5, 0⟩), emptyBacklog) ∧
    (handleDecodedMessage coreB (.Preprepare ⟨5, 0⟩ propB 0)).2.state = coreB.state ∧
    (handleDecodedMessage coreB (.Preprepare ⟨5, 0⟩ propB 0)).2.current = coreB.current :=
  handlePreprepare_future_message coreB ⟨5, 0⟩ propB 0 (by decide) rfl

/-! ## Claim C4: old Preprepare dropped -/

/-- C4: a replica whose RoundState sits at sequence 10 and round 10
receiving a Preprepare whose view is strictly behind gets errOldMessage
from handleDecodedMessage, its state is unchanged, and no backlog entry
is added (the whole engine state is returned untouched). -/
theorem handlePreprepare_old_message (c : Core) (v : View) (p : Proposal) (src : Address)
    (hseq : c.current.Sequence = 10) (hround : c.current.Round = 10)
    (hold : View.lt v c.currentView) :
    handleDecodedMessage c (.Preprepare v p src) = (some Err.errOldMessage, c) := by
  have hchk : checkMessage c v = some .errOldMessage := by
    simp [checkMessage, hold]
  simp [handleDecodedMessage, QBFTMessage.view, hchk]

/-- Witness for C4: view (9,0) is strictly behind coreOld's (10,10). -/
theorem handlePreprepare_old_message_witness :
    handleDecodedMessage coreOld (.Preprepare ⟨9, 0⟩ propB 1) =
      (some Err.errOldMessage, coreOld) :=
  handlePreprepare_old_message coreOld ⟨9, 0⟩ propB 1 rfl rfl (by decide)

/-! ## Claim C5: height mismatch skips the preprepare send -/

/-- C5: when the proposer invokes sendPreprepareMsg with a Request whose
proposal height does not match the live local sequence, no Preprepare is
broadcast, the state stays AcceptRequest, and preprepareSent keeps its
prior value (0 / unset). -/
theorem sendPreprepareMsg_height_mismatch (c : Core) (r : Request)
    (hstate : c.state = State.StateAcceptRequest)
    (hps : c.current.preprepareSent = 0)
    (hmm : r.Proposal.Number ≠ c.current.Sequence) :
    (sendPreprepareMsg c r).sentMsgs = c.sentMsgs ∧
    (sendPreprepareMsg c r).state = State.StateAcceptRequest ∧
    (sendPreprepareMsg c r).current.preprepareSent = 0 := by
  have hcond : ¬ (r.Proposal.Number = c.current.Sequence ∧
      c.valSet.proposer c.currentView = some c.address) := fun h => hmm h.1
  simp only [sendPreprepareMsg, sendPreprepareMsgWithFetch, id_eq]
  rw [if_neg hcond]
  exact ⟨rfl, hstate, hps⟩

/-- Witness for C5: coreP at live sequence 4 with a height-0 request. -/
theorem sendPreprepareMsg_height_mismatch_witness :
    (sendPreprepareMsg coreP reqMismatch).sentMsgs = coreP.sentMsgs ∧
    (sendPreprepareMsg coreP reqMismatch).state = State.StateAcceptRequest ∧
    (sendPreprepareMsg coreP reqMismatch).current.preprepareSent = 0 :=
  sendPreprepareMsg_height_mismatch coreP reqMismatch (by decide) (by decide) (by decide)

/-! ## Claim C6: concurrent sequence change during the proposal fetch -/

/-- C6: when the local sequence changes concurrently while the proposal
is being fetched (the intervening change modelled as an explicit state
transformation applied between the fetch and the send-time re-check),
sendPreprepareMsgWithFetch re-checks the proposal's height against the
live sequence after the fetch completes, detects the mismatch and skips
sending: no Preprepare is broadcast and preprepareSent keeps its prior
value. -/
theorem sendPreprepareMsg_concurrent_change (c : Core) (r : Request) (g : Core → Core)
    (hseq : r.Proposal.Number ≠ (g c).current.Sequence)
    (hsm : (g c).sentMsgs = c.sentMsgs)
    (hst : (g c).state = c.state)
    (hps : (g c).current.preprepareSent = c.current.preprepareSent) :
    (sendPreprepareMsgWithFetch c r g).sentMsgs = c.sentMsgs ∧
    (sendPreprepareMsgWithFetch c r g).state = c.state ∧
    (sendPreprepareMsgWithFetch c r g).current.preprepareSent =
      c.current.preprepareSent := by
  have hcond : ¬ (r.Proposal.Number = (g c).current.Sequence ∧
      (g c).valSet.proposer (g c).currentView = some (g c).address) := fun h => hseq h.1
  simp only [sendPreprepareMsgWithFetch]
  rw [if_neg hcond]
  exact ⟨hsm, hst, hps⟩

/-- Witness for C6: the live sequence is bumped to 1 while fetching a
height-0 proposal, mirroring the concurrent goroutine of the test. -/
theorem sendPreprepareMsg_concurrent_change_witness :
    (sendPreprepareMsgWithFetch coreP reqMismatch seqBump).sentMsgs = coreP.sentMsgs ∧
    (sendPreprepareMsgWithFetch coreP reqMismatch seqBump).state = coreP.state ∧
    (sendPreprepareMsgWithFetch coreP reqMismatch seqBump).current.preprepareSent =
      coreP.current.preprepareSent :=
  sendPreprepareMsg_concurrent_change coreP reqMismatch seqBump (by decide) rfl rfl rfl

/-! ## Claim C7: matching height broadcasts the Preprepare -/

/-- C7: the proposer in AcceptRequest invoking sendPreprepareMsg with a
Request whose proposal height matches the live local sequence broadcasts
a signed Preprepare (its first sent message decodes as a Preprepare),
marks preprepareSent with the current round, and its state remains
AcceptRequest. -/
theorem sendPreprepareMsg_normal_case (c : Core) (r : Request)
    (hstate : c.state = State.StateAcceptRequest)
    (hseq : r.Proposal.Number = c.current.Sequence)
    (hprop : c.valSet.proposer c.currentView = some c.address)
    (hsent : c.sentMsgs = []) :
    (sendPreprepareMsg c r).sentMsgs =
      [QBFTMessage.Preprepare c.currentView r.Proposal c.address] ∧
    (((sendPreprepareMsg c r).sentMsgs.get? 0).map QBFTMessage.Code) =
      some MsgCode.PreprepareCode ∧
    (sendPreprepareMsg c r).current.preprepareSent = c.current.Round ∧
    (sendPreprepareMsg c r).state = State.StateAcceptRequest := by
  simp only [sendPreprepareMsg, sendPreprepareMsgWithFetch, id_eq]
  rw [if_pos ⟨hseq, hprop⟩]
  simp [hsent, hstate, QBFTMessage.Code]

/-- Witness for C7: coreP (proposer 0 at view (4,0)) with a height-4
request. -/
theorem sendPreprepareMsg_normal_case_witness :
    (sendPreprepareMsg coreP reqMatch).sentMsgs =
      [QBFTMessage.Preprepare coreP.currentView reqMatch.Proposal coreP.address] ∧
    (((sendPreprepareMsg coreP reqMatch).sentMsgs.get? 0).map QBFTMessage.Code) =
      some MsgCode.PreprepareCode ∧
    (sendPreprepareMsg coreP reqMatch).current.preprepareSent = coreP.current.Round ∧
    (sendPreprepareMsg coreP reqMatch).state = State.StateAcceptRequest :=
  sendPreprepareMsg_normal_case coreP reqMatch (by decide) (by decide) (by decide)
    (by decide)
